import Mathlib

/-!
Shallow embedding of the pg_ttl_index extension (pg_ttl_index--2.0.0.sql and
pg_ttl_index.c) for checking its natural-language specification.

Conventions of the embedding:
* Timestamps are `Int` (seconds).  A stored row of a user table is represented
  by the value of its TTL timestamp column, so a user table is a `List Int`.
* The `ttl_index_table` catalog is a `List Rule`, one entry per registered
  TTL configuration, mirroring the columns of the SQL table.
* Successive calls to `clock_timestamp()` are modelled by an environment
  function `Env.time : Nat → Int` evaluated at an increasing call counter,
  one increment per executed batch statement (call counter 0 is the
  `start_time := clock_timestamp()` read at the top of `ttl_runner`).
* External failures of a dynamically executed statement (dropped table,
  transient store failure, ...) are modelled by `Env.failAt : Nat → Bool`
  consulted at the same counter, and `Env.enumFails` models a failure of the
  `FOR rec IN SELECT ... FROM ttl_index_table` enumeration query itself.
* Observable actions (advisory-lock calls, executed DELETE statements,
  statistics UPDATEs, raised warnings) are recorded in an event trace.
* PL/pgSQL semantics: the `BEGIN ... EXCEPTION WHEN OTHERS` block that wraps
  one rule's processing is a subtransaction; when the exception is caught all
  database changes made inside the block are rolled back, while the values of
  PL/pgSQL variables (`total_deleted`) are retained.
-/

/-- One row of `ttl_index_table` (pg_ttl_index--2.0.0.sql, lines 1-15). -/
structure Rule where
  table_name : String
  column_name : String
  expire_after_seconds : Int
  active : Bool
  created_at : Int
  updated_at : Option Int
  last_run : Option Int
  batch_size : Nat
  rows_deleted_last_run : Nat
  total_rows_deleted : Nat
  index_name : Option String
deriving DecidableEq, Repr

/-- A user table is the list of its rows' TTL-column timestamps; the store
maps table names to tables. -/
abbrev Store := List (String × List Int)

/-- Observable actions of one cleanup pass. -/
inductive Event where
  | tryLock (acquired : Bool)
  | unlock
  | execDelete (tbl : String) (cutoff : Int) (deleted : Nat)
  | execError (tbl : String) (msg : String)
  | statsUpdate (tbl : String) (col : String) (deleted : Nat)
  | warning (tbl : String) (col : String)
deriving DecidableEq, Repr

/-- Database state seen by the extension: the rule catalog, the user tables,
the set of existing index names, and whether another session holds the
advisory lock `hashtext(pg_ttl_index_runner)`. -/
structure DB where
  registry : List Rule
  store : Store
  indexes : List String
  lockHeld : Bool
deriving DecidableEq, Repr

/-- Environment of one pass: the clock readings, external statement failures,
and whether the rule-enumeration query itself fails. -/
structure Env where
  time : Nat → Int
  failAt : Nat → Bool
  enumFails : Bool

/-- Number of rows of `rows` strictly older than `cutoff` (the rows the SQL
predicate `col < cutoff` selects). -/
def countExpired (cutoff : Int) (rows : List Int) : Nat :=
  (rows.filter (fun v => v < cutoff)).length

/-- The rows of `rows` that are not expired at `cutoff`. -/
def liveRows (cutoff : Int) (rows : List Int) : List Int :=
  rows.filter (fun v => !(decide (v < cutoff)))

/-- One executed batch statement
`DELETE FROM t WHERE ctid = ANY(ARRAY(SELECT ctid FROM t WHERE col < cutoff LIMIT B))`
(pg_ttl_index--2.0.0.sql, lines 115-126): remove up to `B` rows older than
`cutoff`, returning the remaining rows and `ROW_COUNT`. -/
def deleteBatchRows (cutoff : Int) (B : Nat) : List Int → List Int × Nat
  | [] => ([], 0)
  | v :: vs =>
    if B = 0 then (v :: vs, 0)
    else if v < cutoff then
      let p := deleteBatchRows cutoff (B - 1) vs
      (p.1, p.2 + 1)
    else
      let p := deleteBatchRows cutoff B vs
      (v :: p.1, p.2)

/-- Result of the batch-deletion loop for one rule: either the loop finished
(`ok remainingRows tableDeleted nextCallIndex trace`) or a batch statement
raised (`err msg countedSoFar nextCallIndex trace`).  `countedSoFar` is the
value the PL/pgSQL variables have accumulated when the error is raised —
variable state survives the exception even though the row deletions do not. -/
inductive BatchResult where
  | ok (rows : List Int) (deleted : Nat) (k : Nat) (trace : List Event)
  | err (msg : String) (counted : Nat) (k : Nat) (trace : List Event)
deriving DecidableEq, Repr

/-- The trace of a batch-loop result. -/
def BatchResult.trace : BatchResult → List Event
  | .ok _ _ _ tr => tr
  | .err _ _ _ tr => tr

/-- The batch-deletion `LOOP ... EXIT WHEN batch_deleted = 0` of `ttl_runner`
(pg_ttl_index--2.0.0.sql, lines 113-136).  Each iteration re-reads
`clock_timestamp()` (call counter `k`), executes one batch DELETE, adds the
count to the running totals and exits when the count is zero.  The `fuel`
argument makes the recursion structural; `fuel = rows.length + 1` always
suffices because every continuing iteration removes at least one row
(`batchLoopAux_fuel_irrelevant` below). -/
def batchLoopAux (env : Env) (tbl : String) (expire : Int) (B : Nat) :
    Nat → List Int → Nat → BatchResult
  | 0, _, k => .err "fuel exhausted" 0 k []
  | fuel + 1, rows, k =>
    if env.failAt k then
      .err "delete failed" 0 (k + 1) [.execError tbl "delete failed"]
    else
      let cutoff := env.time k - expire
      let p := deleteBatchRows cutoff B rows
      if p.2 = 0 then
        .ok p.1 0 (k + 1) [.execDelete tbl cutoff 0]
      else
        match batchLoopAux env tbl expire B fuel p.1 (k + 1) with
        | .ok rows' d k' tr => .ok rows' (p.2 + d) k' (.execDelete tbl cutoff p.2 :: tr)
        | .err m c k' tr => .err m (p.2 + c) k' (.execDelete tbl cutoff p.2 :: tr)

/-- The batch-deletion loop for one rule, started with sufficient fuel. -/
def batchLoop (env : Env) (tbl : String) (expire : Int) (B : Nat)
    (rows : List Int) (k : Nat) : BatchResult :=
  batchLoopAux env tbl expire B (rows.length + 1) rows k

/-- Effect of the statistics `UPDATE` on one matching catalog row
(pg_ttl_index--2.0.0.sql, lines 139-144): `last_run := start_time`,
`rows_deleted_last_run := table_deleted`,
`total_rows_deleted := total_rows_deleted + table_deleted`. -/
def updEntry (start_time : Int) (e : Rule) (d : Nat) : Rule :=
  { e with last_run := some start_time, rows_deleted_last_run := d,
           total_rows_deleted := e.total_rows_deleted + d }

/-- The statistics `UPDATE ... WHERE table_name = rec.table_name AND
column_name = rec.column_name` applied to the whole catalog. -/
def updateStats (reg : List Rule) (tn cn : String) (start_time : Int) (d : Nat) :
    List Rule :=
  reg.map fun e =>
    if e.table_name = tn && e.column_name = cn then updEntry start_time e d else e

/-- Look up a user table by name. -/
def lookupTable (store : Store) (tbl : String) : Option (List Int) :=
  (store.find? (fun e => e.1 = tbl)).map (fun e => e.2)

/-- Replace the contents of a user table. -/
def setTable (store : Store) (tbl : String) (rows : List Int) : Store :=
  store.map fun e => if e.1 = tbl then (e.1, rows) else e

/-- Processing of one rule inside the `FOR` loop of `ttl_runner`
(pg_ttl_index--2.0.0.sql, lines 105-151): the `BEGIN ... EXCEPTION WHEN
OTHERS` block runs the batch loop and the statistics update in a
subtransaction.  If the target table does not exist the first batch statement
raises; on any caught error the subtransaction's database changes are rolled
back (store and registry revert), a warning is logged, and only the PL/pgSQL
counter contribution (`counted`) survives into `total_deleted`.
Returns `(store, registry, contribution to total_deleted, next call counter,
events)`. -/
def processRule (env : Env) (start_time : Int) (store : Store) (reg : List Rule)
    (r : Rule) (k : Nat) : Store × List Rule × Nat × Nat × List Event :=
  match lookupTable store r.table_name with
  | none =>
      (store, reg, 0, k + 1,
        [.execError r.table_name "relation does not exist",
         .warning r.table_name r.column_name])
  | some rows =>
      match batchLoop env r.table_name r.expire_after_seconds r.batch_size rows k with
      | .ok rows' d k' tr =>
          (setTable store r.table_name rows',
           updateStats reg r.table_name r.column_name start_time d,
           d, k', tr ++ [.statsUpdate r.table_name r.column_name d])
      | .err _ c k' tr =>
          (store, reg, c, k', tr ++ [.warning r.table_name r.column_name])

/-- `ORDER BY table_name, column_name` comparison on catalog rows. -/
def ruleKeyLe (a b : Rule) : Bool :=
  match compare a.table_name b.table_name with
  | .lt => true
  | .gt => false
  | .eq => compare a.column_name b.column_name ≠ .gt

/-- Insertion step of the deterministic ordering of active rules. -/
def insertRule (r : Rule) : List Rule → List Rule
  | [] => [r]
  | x :: xs => if ruleKeyLe r x then r :: x :: xs else x :: insertRule r xs

/-- Deterministic ordering of the active rules (`ORDER BY table_name,
column_name`). -/
def sortRules : List Rule → List Rule
  | [] => []
  | r :: rs => insertRule r (sortRules rs)

/-- The `FOR rec IN ... LOOP` over the active rules: thread the store, the
catalog, the running `total_deleted` and the clock counter through
`processRule`, collecting the event trace. -/
def goRules (env : Env) (start_time : Int) :
    List Rule → Store → List Rule → Nat → Store × List Rule × Nat × List Event
  | [], store, reg, _ => (store, reg, 0, [])
  | r :: rs, store, reg, k =>
    let s := processRule env start_time store reg r k
    let rest := goRules env start_time rs s.1 s.2.1 s.2.2.2.1
    (rest.1, rest.2.1, s.2.2.1 + rest.2.2.1, s.2.2.2.2 ++ rest.2.2.2)

/-- `ttl_runner()` (pg_ttl_index--2.0.0.sql, lines 83-157).
1. `pg_try_advisory_lock`: if another session holds the lock, raise a notice
   and return 0.
2. `start_time := clock_timestamp()` (call counter 0).
3. Enumerate the active rules ordered by `(table_name, column_name)`; a
   failure of this query propagates out of the function (there is no
   enclosing exception handler), leaving the advisory lock held.
4. Process each rule with `processRule`.
5. `pg_advisory_unlock` and return `total_deleted`. -/
def ttl_runner (env : Env) (db : DB) : DB × List Event × Except String Nat :=
  if db.lockHeld then
    (db, [.tryLock false], .ok 0)
  else
    let db1 : DB := { db with lockHeld := true }
    let start_time := env.time 0
    if env.enumFails then
      (db1, [.tryLock true], .error "could not enumerate active rules")
    else
      let active := sortRules (db1.registry.filter (fun r => r.active))
      let g := goRules env start_time active db1.store db1.registry 1
      ({ db1 with store := g.1, registry := g.2.1, lockHeld := false },
       .tryLock true :: g.2.2.2 ++ [.unlock], .ok g.2.2.1)

/-- A sequence of cleanup passes, returning the final state and the trace of
each pass. -/
def runPasses : List Env → DB → DB × List (List Event)
  | [], db => (db, [])
  | e :: es, db =>
    let p := ttl_runner e db
    let rest := runPasses es p.1
    (rest.1, p.2.1 :: rest.2)

/-- The deleted-count of a statistics-update event for the given rule key. -/
def statsEventFor (tn cn : String) : Event → Option Nat
  | .statsUpdate t c d => if t = tn && c = cn then some d else none
  | _ => none

/-- The deleted-counts recorded by statistics updates for one rule key, in
trace order: one entry per pass in which that rule's processing succeeded. -/
def statsEventsFor (tn cn : String) (tr : List Event) : List Nat :=
  tr.filterMap (statsEventFor tn cn)

/-- Number of executed (completed) batch DELETE statements in a trace. -/
def execCount (tr : List Event) : Nat :=
  (tr.filter (fun e => match e with | .execDelete _ _ _ => true | _ => false)).length

/-- Sum of the per-batch deleted counts recorded in a trace. -/
def sumDeleted (tr : List Event) : Nat :=
  (tr.map (fun e => match e with | .execDelete _ _ d => d | _ => 0)).sum

/-- Outcome reported by `WaitForBackgroundWorkerStartup`. -/
inductive StartupStatus where
  | started
  | stopped
  | postmasterDied
deriving DecidableEq, Repr

/-- Environment of the worker-management functions: whether the server is in
recovery, whether `RegisterDynamicBackgroundWorker` succeeds, and what
`WaitForBackgroundWorkerStartup` reports. -/
structure WorkerEnv where
  recoveryInProgress : Bool
  registerOk : Bool
  startupResult : StartupStatus
deriving DecidableEq, Repr

/-- Worker-visible state: whether a backend whose application name carries the
TTL-worker prefix exists in the current database (what both
`is_ttl_worker_running` and the termination query of `ttl_stop_worker`
observe in `pg_stat_activity`). -/
structure WorkerSys where
  workerRunning : Bool
deriving DecidableEq, Repr

/-- `is_ttl_worker_running` (pg_ttl_index.c, lines 336-355): does
`pg_stat_activity` show a TTL worker backend for the current database. -/
def is_ttl_worker_running (s : WorkerSys) : Bool :=
  s.workerRunning

/-- `ttl_start_worker` (pg_ttl_index.c, lines 441-473): error during recovery;
return true immediately when a worker is already running; otherwise register a
dynamic background worker and map the startup wait result to the return
value. -/
def ttl_start_worker (env : WorkerEnv) (s : WorkerSys) :
    WorkerSys × Except String Bool :=
  if env.recoveryInProgress then
    (s, .error "cannot start TTL worker during recovery")
  else if is_ttl_worker_running s then
    (s, .ok true)
  else if !env.registerOk then
    (s, .ok false)
  else
    match env.startupResult with
    | .started => ({ workerRunning := true }, .ok true)
    | .stopped => (s, .ok false)
    | .postmasterDied => (s, .error "postmaster died while starting TTL background worker")

/-- `ttl_stop_worker` (pg_ttl_index.c, lines 476-498): terminate every backend
whose application name carries the TTL-worker prefix; the return value is
`SPI_processed > 0`, i.e. whether any worker backend was actually found. -/
def ttl_stop_worker (s : WorkerSys) : WorkerSys × Bool :=
  ({ workerRunning := false }, s.workerRunning)

/-- First catalog row matching a `(table_name, column_name)` key (the
`SELECT index_name INTO v_idx_name ... WHERE ...` lookup). -/
def lookupRule (reg : List Rule) (tn cn : String) : Option Rule :=
  reg.find? (fun r => r.table_name = tn && r.column_name = cn)

/-- `ttl_drop_index` (pg_ttl_index--2.0.0.sql, lines 53-80): read the stored
index name for the key; `DROP INDEX IF EXISTS` it when non-null; `DELETE` the
configuration rows for the key; return `FOUND`, i.e. whether the `DELETE`
removed anything. -/
def ttl_drop_index (db : DB) (tn cn : String) : DB × Bool :=
  let v_idx := (lookupRule db.registry tn cn).bind (fun r => r.index_name)
  let indexes' :=
    match v_idx with
    | some ix => db.indexes.filter (fun i => i ≠ ix)
    | none => db.indexes
  let found := db.registry.any (fun r => r.table_name = tn && r.column_name = cn)
  let registry' := db.registry.filter
    (fun r => !(r.table_name = tn && r.column_name = cn))
  ({ db with indexes := indexes', registry := registry' }, found)

deriving instance DecidableEq for Except

/-- Concrete fixture: one registered rule on table `t`, column `ts`,
retention 10 seconds, batch size 1. -/
def wRule : Rule :=
  { table_name := "t", column_name := "ts", expire_after_seconds := 10,
    active := true, created_at := 0, updated_at := none, last_run := none,
    batch_size := 1, rows_deleted_last_run := 0, total_rows_deleted := 0,
    index_name := some "idx_ttl_t_ts" }

/-- Concrete fixture: constant clock at 100, no external failures. -/
def wEnv : Env :=
  { time := fun _ => 100, failAt := fun _ => false, enumFails := false }

/-- Concrete fixture: a database with the rule `wRule` and one table holding
one expired row (timestamp 50, cutoff 90) and two live rows. -/
def wDB : DB :=
  { registry := [wRule], store := [("t", [50, 95, 99])],
    indexes := ["idx_ttl_t_ts"], lockHeld := false }

/-- Environment whose clock reads `t1` up to call counter 1 and `t2` from
call counter 2 on, with no failures. -/
def envTwoStep (t1 t2 : Int) : Env :=
  { time := fun k => if k ≤ 1 then t1 else t2, failAt := fun _ => false,
    enumFails := false }

/-- Environment with a constant clock whose second batch statement (call
counter 2) raises an external error. -/
def envFailSecond (t : Int) : Env :=
  { time := fun _ => t, failAt := fun k => k == 2, enumFails := false }

/-- Environment with a constant clock and no failures. -/
def envConst (t : Int) : Env :=
  { time := fun _ => t, failAt := fun _ => false, enumFails := false }

/-- Environment whose enumeration of active rules fails. -/
def envEnumFail : Env :=
  { time := fun _ => 0, failAt := fun _ => false, enumFails := true }

/-- Database with two registered rules where only rule `rB`'s table exists in
the store (rule `rA`'s target table has been dropped). -/
def mkTwoDBMissingA (rA rB : Rule) (rowsB : List Int) : DB :=
  { registry := [rA, rB],
    store := [(rB.table_name, rowsB)],
    indexes := [], lockHeld := false }

/-- Database with two registered rules and both target tables present. -/
def mkTwoDB (rA rB : Rule) (rowsA rowsB : List Int) : DB :=
  { registry := [rA, rB],
    store := [(rA.table_name, rowsA), (rB.table_name, rowsB)],
    indexes := [], lockHeld := false }

/-- Database with one registered rule whose table holds rows `u` and `v`. -/
def mkOneDB (r : Rule) (rows : List Int) : DB :=
  { registry := [r], store := [(r.table_name, rows)], indexes := [],
    lockHeld := false }

/-- A freshly registered active rule with the given key, retention and batch
size (statistics at their defaults). -/
def mkRule (tn cn : String) (e : Int) (B : Nat) : Rule :=
  { table_name := tn, column_name := cn, expire_after_seconds := e,
    active := true, created_at := 0, updated_at := none, last_run := none,
    batch_size := B, rows_deleted_last_run := 0, total_rows_deleted := 0,
    index_name := none }

/-- Empty database: no rules, no tables, lock free. -/
def emptyDB : DB :=
  { registry := [], store := [], indexes := [], lockHeld := false }


theorem countExpired_nil (c : Int) : countExpired c [] = 0 := rfl

theorem countExpired_cons (c v : Int) (vs : List Int) :
    countExpired c (v :: vs) =
      (if v < c then 1 else 0) + countExpired c vs := by
  by_cases hv : v < c
  · simp [countExpired, List.filter_cons, hv]
    omega
  · simp [countExpired, List.filter_cons, hv]

theorem liveRows_cons (c v : Int) (vs : List Int) :
    liveRows c (v :: vs) =
      if v < c then liveRows c vs else v :: liveRows c vs := by
  by_cases hv : v < c <;> simp [liveRows, List.filter_cons, hv]

theorem countExpired_eq_zero (c : Int) (rows : List Int)
    (h : countExpired c rows = 0) : ∀ v ∈ rows, ¬ v < c := by
  induction rows with
  | nil => simp
  | cons v vs ih =>
    rw [countExpired_cons] at h
    have hv : ¬ v < c := by
      intro hv
      rw [if_pos hv] at h
      omega
    have hvs : countExpired c vs = 0 := by
      rw [if_neg hv] at h
      omega
    intro w hw
    rcases List.mem_cons.mp hw with h1 | h2
    · rw [h1]; exact hv
    · exact ih hvs w h2

theorem liveRows_eq_self (c : Int) (rows : List Int)
    (h : countExpired c rows = 0) : liveRows c rows = rows := by
  apply List.filter_eq_self.mpr
  intro v hv
  simpa using countExpired_eq_zero c rows h v hv

theorem deleteBatchRows_len (c : Int) (B : Nat) (rows : List Int) :
    (deleteBatchRows c B rows).1.length + (deleteBatchRows c B rows).2 =
      rows.length := by
  induction rows generalizing B with
  | nil => simp [deleteBatchRows]
  | cons v vs ih =>
    by_cases hB : B = 0
    · simp [deleteBatchRows, hB]
    · by_cases hv : v < c
      · have h1 := ih (B - 1)
        simp only [deleteBatchRows, if_neg hB, if_pos hv, List.length_cons]
        omega
      · have h1 := ih B
        simp only [deleteBatchRows, if_neg hB, if_neg hv, List.length_cons]
        omega

theorem deleteBatchRows_deleted (c : Int) (B : Nat) (rows : List Int) :
    (deleteBatchRows c B rows).2 = min B (countExpired c rows) := by
  induction rows generalizing B with
  | nil => simp [deleteBatchRows, countExpired_nil]
  | cons v vs ih =>
    by_cases hB : B = 0
    · simp [deleteBatchRows, hB]
    · by_cases hv : v < c
      · have h1 := ih (B - 1)
        simp only [deleteBatchRows, if_neg hB, if_pos hv, countExpired_cons,
          if_pos hv]
        omega
      · have h1 := ih B
        simp only [deleteBatchRows, if_neg hB, if_neg hv, countExpired_cons,
          if_neg hv]
        omega

theorem deleteBatchRows_live (c : Int) (B : Nat) (rows : List Int) :
    liveRows c (deleteBatchRows c B rows).1 = liveRows c rows := by
  induction rows generalizing B with
  | nil => simp [deleteBatchRows]
  | cons v vs ih =>
    by_cases hB : B = 0
    · simp [deleteBatchRows, hB]
    · by_cases hv : v < c
      · simp only [deleteBatchRows, if_neg hB, if_pos hv, liveRows_cons]
        exact ih (B - 1)
      · simp only [deleteBatchRows, if_neg hB, if_neg hv, liveRows_cons]
        rw [ih B]

theorem deleteBatchRows_countExpired (c : Int) (B : Nat) (rows : List Int) :
    countExpired c (deleteBatchRows c B rows).1 =
      countExpired c rows - (deleteBatchRows c B rows).2 := by
  induction rows generalizing B with
  | nil => simp [deleteBatchRows]
  | cons v vs ih =>
    by_cases hB : B = 0
    · simp [deleteBatchRows, hB]
    · by_cases hv : v < c
      · have h1 := ih (B - 1)
        have h2 := deleteBatchRows_deleted c (B - 1) vs
        simp only [deleteBatchRows, if_neg hB, if_pos hv, countExpired_cons,
          if_pos hv]
        omega
      · have h1 := ih B
        have h2 := deleteBatchRows_deleted c B vs
        simp only [deleteBatchRows, if_neg hB, if_neg hv, countExpired_cons,
          if_neg hv]
        omega

theorem deleteBatchRows_of_none_expired (c : Int) (B : Nat) (rows : List Int)
    (h : countExpired c rows = 0) : deleteBatchRows c B rows = (rows, 0) := by
  induction rows generalizing B with
  | nil => simp [deleteBatchRows]
  | cons v vs ih =>
    rw [countExpired_cons] at h
    have hv : ¬ v < c := by
      intro hv
      rw [if_pos hv] at h
      omega
    have hvs : countExpired c vs = 0 := by
      rw [if_neg hv] at h
      omega
    by_cases hB : B = 0
    · simp [deleteBatchRows, hB]
    · simp [deleteBatchRows, if_neg hB, if_neg hv, ih B hvs]

theorem execCount_cons_execDelete (tbl : String) (c : Int) (d : Nat)
    (tr : List Event) :
    execCount (.execDelete tbl c d :: tr) = execCount tr + 1 := by
  simp [execCount, List.filter_cons]

theorem sumDeleted_cons_execDelete (tbl : String) (c : Int) (d : Nat)
    (tr : List Event) :
    sumDeleted (.execDelete tbl c d :: tr) = d + sumDeleted tr := by
  simp [sumDeleted]

theorem statsEventsFor_cons_execDelete (tn cn tbl : String) (c : Int) (d : Nat)
    (tr : List Event) :
    statsEventsFor tn cn (.execDelete tbl c d :: tr) = statsEventsFor tn cn tr := by
  simp [statsEventsFor, List.filterMap_cons, statsEventFor]

theorem ceil_step (B N : Nat) (hB : 1 ≤ B) (hN : 1 ≤ N) :
    (N - min B N + B - 1) / B + 1 = (N + B - 1) / B := by
  rcases le_or_lt N B with h | h
  · have hmin : min B N = N := by omega
    have h1 : N - N + B - 1 = B - 1 := by omega
    rw [hmin, h1]
    have h2 : (B - 1) / B = 0 := Nat.div_eq_of_lt (by omega)
    have h3 : N + B - 1 = (N - 1) + B := by omega
    rw [h2, h3, Nat.add_div_right _ (by omega)]
    have h4 : (N - 1) / B = 0 := Nat.div_eq_of_lt (by omega)
    omega
  · have hmin : min B N = B := by omega
    have h1 : N - B + B - 1 = N - 1 := by omega
    rw [hmin, h1]
    have h3 : N + B - 1 = (N - 1) + B := by omega
    rw [h3, Nat.add_div_right _ (by omega)]

theorem batchLoopAux_complete (env : Env) (tbl : String) (e t : Int) (B : Nat)
    (ht : ∀ j, env.time j = t) (hB : 1 ≤ B) :
    ∀ fuel rows k, rows.length < fuel →
      (∀ j, k ≤ j → env.failAt j = false) →
      ∃ tr, batchLoopAux env tbl e B fuel rows k =
          .ok (liveRows (t - e) rows) (countExpired (t - e) rows)
            (k + ((countExpired (t - e) rows + B - 1) / B + 1)) tr ∧
        execCount tr = (countExpired (t - e) rows + B - 1) / B + 1 ∧
        sumDeleted tr = countExpired (t - e) rows ∧
        (∀ tn cn, statsEventsFor tn cn tr = []) ∧
        ∀ ev ∈ tr, ∃ c d, ev = Event.execDelete tbl c d := by
  intro fuel
  induction fuel with
  | zero =>
    intro rows k hlen hf
    omega
  | succ fuel ih =>
    intro rows k hlen hf
    have hfk : env.failAt k = false := hf k (le_refl k)
    have htk : env.time k = t := ht k
    have hmin := deleteBatchRows_deleted (t - e) B rows
    by_cases hz : (deleteBatchRows (t - e) B rows).2 = 0
    · have hN0 : countExpired (t - e) rows = 0 := by omega
      have hrows : deleteBatchRows (t - e) B rows = (rows, 0) :=
        deleteBatchRows_of_none_expired _ _ _ hN0
      have h2 : (B - 1) / B = 0 := Nat.div_eq_of_lt (by omega)
      refine ⟨[Event.execDelete tbl (t - e) 0], ?_, ?_, ?_, ?_, ?_⟩
      · simp only [batchLoopAux, hfk, Bool.false_eq_true, if_false, htk, hrows]
        norm_num [liveRows_eq_self _ _ hN0, hN0, h2]
      · rw [hN0]
        norm_num [execCount, h2]
      · simp [sumDeleted, hN0]
      · intro tn cn
        simp [statsEventsFor, List.filterMap_cons, statsEventFor]
      · intro ev hev
        rw [List.mem_singleton] at hev
        exact ⟨t - e, 0, hev⟩
    · have hNpos : 1 ≤ countExpired (t - e) rows := by omega
      have hlen2 := deleteBatchRows_len (t - e) B rows
      have hlen' : (deleteBatchRows (t - e) B rows).1.length < fuel := by omega
      have hf' : ∀ j, k + 1 ≤ j → env.failAt j = false :=
        fun j hj => hf j (by omega)
      obtain ⟨tr', hrec, hex, hsum, hstats, hall⟩ := ih _ (k + 1) hlen' hf'
      have hcnt := deleteBatchRows_countExpired (t - e) B rows
      have hlive := deleteBatchRows_live (t - e) B rows
      have hceil := ceil_step B (countExpired (t - e) rows) hB hNpos
      refine ⟨Event.execDelete tbl (t - e) (deleteBatchRows (t - e) B rows).2 :: tr',
        ?_, ?_, ?_, ?_, ?_⟩
      · simp only [batchLoopAux, hfk, Bool.false_eq_true, if_false, htk,
          if_neg hz, hrec]
        rw [hlive, hcnt]
        have hd : (deleteBatchRows (t - e) B rows).2 +
            (countExpired (t - e) rows - (deleteBatchRows (t - e) B rows).2) =
              countExpired (t - e) rows := by omega
        rw [hd]
        have hk : k + 1 +
            ((countExpired (t - e) rows - (deleteBatchRows (t - e) B rows).2
                + B - 1) / B + 1) =
            k + ((countExpired (t - e) rows + B - 1) / B + 1) := by
          rw [hmin] at hcnt ⊢
          omega
        rw [hk]
      · rw [execCount_cons_execDelete, hex, hcnt, hmin]
        omega
      · rw [sumDeleted_cons_execDelete, hsum, hcnt]
        omega
      · intro tn cn
        rw [statsEventsFor_cons_execDelete, hstats]
      · intro ev hev
        rcases List.mem_cons.mp hev with h | h
        · exact ⟨t - e, (deleteBatchRows (t - e) B rows).2, h⟩
        · exact hall ev h

theorem batchLoop_complete (env : Env) (tbl : String) (e t : Int) (B : Nat)
    (rows : List Int) (k : Nat)
    (ht : ∀ j, env.time j = t) (hB : 1 ≤ B)
    (hf : ∀ j, k ≤ j → env.failAt j = false) :
    ∃ tr, batchLoop env tbl e B rows k =
        .ok (liveRows (t - e) rows) (countExpired (t - e) rows)
          (k + ((countExpired (t - e) rows + B - 1) / B + 1)) tr ∧
      execCount tr = (countExpired (t - e) rows + B - 1) / B + 1 ∧
      sumDeleted tr = countExpired (t - e) rows ∧
      (∀ tn cn, statsEventsFor tn cn tr = []) ∧
      ∀ ev ∈ tr, ∃ c d, ev = Event.execDelete tbl c d :=
  batchLoopAux_complete env tbl e t B ht hB (rows.length + 1) rows k
    (Nat.lt_succ_self _) hf

theorem batchLoopAux_stats_nil (env : Env) (tbl : String) (e : Int) (B : Nat)
    (tn cn : String) :
    ∀ fuel rows k,
      statsEventsFor tn cn (batchLoopAux env tbl e B fuel rows k).trace = [] := by
  intro fuel
  induction fuel with
  | zero =>
    intro rows k
    simp [batchLoopAux, BatchResult.trace, statsEventsFor]
  | succ fuel ih =>
    intro rows k
    by_cases hfk : env.failAt k = true
    · simp [batchLoopAux, hfk, BatchResult.trace, statsEventsFor,
        List.filterMap_cons, statsEventFor]
    · by_cases hz : (deleteBatchRows (env.time k - e) B rows).2 = 0
      · simp [batchLoopAux, hfk, hz, BatchResult.trace, statsEventsFor,
          List.filterMap_cons, statsEventFor]
      · have h := ih (deleteBatchRows (env.time k - e) B rows).1 (k + 1)
        cases hrec : batchLoopAux env tbl e B fuel
            (deleteBatchRows (env.time k - e) B rows).1 (k + 1) with
        | ok rows' d k' tr =>
          rw [hrec] at h
          simpa [batchLoopAux, hfk, hz, hrec, BatchResult.trace, statsEventsFor,
            List.filterMap_cons, statsEventFor] using h
        | err m c k' tr =>
          rw [hrec] at h
          simpa [batchLoopAux, hfk, hz, hrec, BatchResult.trace, statsEventsFor,
            List.filterMap_cons, statsEventFor] using h

theorem batchLoop_stats_nil (env : Env) (tbl : String) (e : Int) (B : Nat)
    (tn cn : String) (rows : List Int) (k : Nat) :
    statsEventsFor tn cn (batchLoop env tbl e B rows k).trace = [] :=
  batchLoopAux_stats_nil env tbl e B tn cn (rows.length + 1) rows k

theorem updateStats_getElem (reg : List Rule) (tn cn : String) (s : Int)
    (d : Nat) (i : Nat) (e : Rule) (he : reg[i]? = some e) :
    (updateStats reg tn cn s d)[i]? =
      some (if e.table_name = tn && e.column_name = cn then updEntry s e d else e) := by
  simp [updateStats, List.getElem?_map, he]

theorem goRules_registry (env : Env) (start_time : Int) :
    ∀ (rules : List Rule) (store : Store) (reg : List Rule) (k i : Nat) (e : Rule),
      reg[i]? = some e →
      ((goRules env start_time rules store reg k).2.1)[i]? =
        some ((statsEventsFor e.table_name e.column_name
                (goRules env start_time rules store reg k).2.2.2).foldl
              (updEntry start_time) e) := by
  intro rules
  induction rules with
  | nil =>
    intro store reg k i e he
    simp [goRules, statsEventsFor, he]
  | cons r rs ih =>
    intro store reg k i e he
    cases hlk : lookupTable store r.table_name with
    | none =>
      have h := ih store reg (k + 1) i e he
      simp only [goRules, processRule, hlk, statsEventsFor, List.filterMap_append,
        List.filterMap_cons, statsEventFor, List.foldl_append]
      simpa [statsEventsFor] using h
    | some rows =>
      cases hb : batchLoop env r.table_name r.expire_after_seconds r.batch_size rows k with
      | ok rows' d k' tr =>
        have hbs : List.filterMap (statsEventFor e.table_name e.column_name) tr = [] := by
          have := batchLoop_stats_nil env r.table_name r.expire_after_seconds
            r.batch_size e.table_name e.column_name rows k
          rw [hb] at this
          simpa [BatchResult.trace, statsEventsFor] using this
        by_cases hkey : e.table_name = r.table_name ∧ e.column_name = r.column_name
        · have he1 : (updateStats reg r.table_name r.column_name start_time d)[i]? =
              some (updEntry start_time e d) := by
            rw [updateStats_getElem reg _ _ _ _ i e he]
            simp [hkey.1, hkey.2]
          have h := ih (setTable store r.table_name rows')
            (updateStats reg r.table_name r.column_name start_time d) k' i
            (updEntry start_time e d) he1
          rw [show (updEntry start_time e d).table_name = e.table_name from rfl,
              show (updEntry start_time e d).column_name = e.column_name from rfl] at h
          have hev : statsEventFor e.table_name e.column_name
              (.statsUpdate r.table_name r.column_name d) = some d := by
            simp [statsEventFor, hkey.1, hkey.2]
          simp only [goRules, processRule, hlk, hb]
          simp only [statsEventsFor, List.filterMap_append, List.filterMap_cons,
            List.filterMap_nil, List.foldl_append, List.foldl_nil] at h ⊢
          rw [hbs, hev]
          simp only [List.foldl_nil, List.foldl_cons]
          exact h
        · have hne : statsEventFor e.table_name e.column_name
              (.statsUpdate r.table_name r.column_name d) = none := by
            by_cases h1 : r.table_name = e.table_name
            · have h2 : ¬ r.column_name = e.column_name := by
                intro h2
                exact hkey ⟨h1.symm, h2.symm⟩
              simp [statsEventFor, h1, h2]
            · simp [statsEventFor, h1]
          have he1 : (updateStats reg r.table_name r.column_name start_time d)[i]? =
              some e := by
            rw [updateStats_getElem reg _ _ _ _ i e he]
            have hfalse : (e.table_name = r.table_name && e.column_name = r.column_name)
                = false := by
              by_cases h1 : e.table_name = r.table_name
              · have h2 : ¬ e.column_name = r.column_name :=
                  fun h2 => hkey ⟨h1, h2⟩
                simp [h1, h2]
              · simp [h1]
            rw [hfalse]
            simp
          have h := ih (setTable store r.table_name rows')
            (updateStats reg r.table_name r.column_name start_time d) k' i e he1
          simp only [goRules, processRule, hlk, hb]
          simp only [statsEventsFor, List.filterMap_append, List.filterMap_cons,
            List.filterMap_nil, List.foldl_append, List.foldl_nil] at h ⊢
          rw [hbs, hne]
          simp only [List.foldl_nil]
          exact h
      | err m c k' tr =>
        have hbs : List.filterMap (statsEventFor e.table_name e.column_name) tr = [] := by
          have := batchLoop_stats_nil env r.table_name r.expire_after_seconds
            r.batch_size e.table_name e.column_name rows k
          rw [hb] at this
          simpa [BatchResult.trace, statsEventsFor] using this
        have h := ih store reg k' i e he
        simp only [goRules, processRule, hlk, hb]
        simp only [statsEventsFor, List.filterMap_append, List.filterMap_cons,
          statsEventFor, List.filterMap_nil, List.foldl_append, List.foldl_nil] at h ⊢
        rw [hbs]
        simp only [List.foldl_nil]
        exact h

theorem ttl_runner_registry (env : Env) (db : DB) (i : Nat) (e : Rule)
    (he : db.registry[i]? = some e) :
    (ttl_runner env db).1.registry[i]? =
      some ((statsEventsFor e.table_name e.column_name (ttl_runner env db).2.1).foldl
            (updEntry (env.time 0)) e) := by
  by_cases hlock : db.lockHeld
  · simp [ttl_runner, hlock, statsEventsFor, List.filterMap_cons, statsEventFor, he]
  · by_cases henum : env.enumFails
    · simp [ttl_runner, hlock, henum, statsEventsFor, List.filterMap_cons,
        statsEventFor, he]
    · have h := goRules_registry env (env.time 0)
        (sortRules (db.registry.filter (fun r => r.active))) db.store db.registry 1 i e he
      simp only [ttl_runner, hlock, henum, Bool.false_eq_true, if_false,
        statsEventsFor, List.filterMap_cons, List.filterMap_append, statsEventFor,
        List.filterMap_nil, List.foldl_append, List.foldl_nil] at h ⊢
      simpa [statsEventsFor] using h

theorem foldl_updEntry_total (s : Int) (l : List Nat) :
    ∀ e : Rule, (l.foldl (updEntry s) e).total_rows_deleted =
      e.total_rows_deleted + l.sum := by
  induction l with
  | nil =>
    intro e
    simp
  | cons d ds ih =>
    intro e
    simp only [List.foldl_cons, List.sum_cons, ih (updEntry s e d)]
    simp [updEntry]
    omega

theorem foldl_updEntry_key (s : Int) (l : List Nat) :
    ∀ e : Rule, (l.foldl (updEntry s) e).table_name = e.table_name ∧
      (l.foldl (updEntry s) e).column_name = e.column_name := by
  induction l with
  | nil =>
    intro e
    exact ⟨rfl, rfl⟩
  | cons d ds ih =>
    intro e
    simpa [List.foldl_cons, updEntry] using ih (updEntry s e d)

theorem runPasses_registry (envs : List Env) :
    ∀ (db : DB) (i : Nat) (e : Rule), db.registry[i]? = some e →
    ∃ e', (runPasses envs db).1.registry[i]? = some e' ∧
      e'.table_name = e.table_name ∧ e'.column_name = e.column_name ∧
      e'.total_rows_deleted = e.total_rows_deleted +
        ((runPasses envs db).2.map
          (fun tr => (statsEventsFor e.table_name e.column_name tr).sum)).sum := by
  induction envs with
  | nil =>
    intro db i e he
    exact ⟨e, by simpa [runPasses] using he, rfl, rfl, by simp [runPasses]⟩
  | cons env envs ih =>
    intro db i e he
    have h1 := ttl_runner_registry env db i e he
    obtain ⟨e', h2, hk1, hk2, h3⟩ := ih (ttl_runner env db).1 i _ h1
    have hkey := foldl_updEntry_key (env.time 0)
      (statsEventsFor e.table_name e.column_name (ttl_runner env db).2.1) e
    have htot := foldl_updEntry_total (env.time 0)
      (statsEventsFor e.table_name e.column_name (ttl_runner env db).2.1) e
    simp only [hkey.1, hkey.2] at h3 hk1 hk2
    refine ⟨e', ?_, hk1, hk2, ?_⟩
    · simpa [runPasses] using h2
    · rw [h3, htot]
      simp [runPasses, List.map_cons, List.sum_cons]
      omega

/-- C7: if the single-flight guard is already held when a cleanup pass starts,
the pass returns immediately with zero deletions (`Except.ok 0`, not an
error), deletes no rows and changes no rule's statistics: the database state
is returned unchanged and the only observable action is the failed lock
attempt. -/
theorem claim_c7_skip_pass (env : Env) (db : DB) (h : db.lockHeld = true) :
    ttl_runner env db = (db, [Event.tryLock false], Except.ok 0) := by
  simp [ttl_runner, h]

/-- C7 witness: a concrete pass against a held guard is a no-op returning 0. -/
theorem claim_c7_witness :
    ttl_runner wEnv
        { registry := [wRule], store := [("t", [50])], indexes := [],
          lockHeld := true } =
      ({ registry := [wRule], store := [("t", [50])], indexes := [],
         lockHeld := true }, [Event.tryLock false], Except.ok 0) :=
  claim_c7_skip_pass wEnv _ rfl

/-- C3 (amended): the guard is released on normal completion of the pass —
including passes with per-rule errors, which are caught inside the loop — but
an orchestrator-level error (a failure of the active-rule enumeration query)
propagates out of `ttl_runner`, which has no enclosing handler, so on that
exit path the guard is NOT released. -/
theorem claim_c3_guard_release :
    (∀ (env : Env) (db : DB), db.lockHeld = false → env.enumFails = false →
      (ttl_runner env db).1.lockHeld = false ∧
      Event.unlock ∈ (ttl_runner env db).2.1) ∧
    (∀ (env : Env) (db : DB), db.lockHeld = false → env.enumFails = true →
      (ttl_runner env db).1.lockHeld = true ∧
      Event.unlock ∉ (ttl_runner env db).2.1 ∧
      (ttl_runner env db).2.2 = Except.error "could not enumerate active rules") := by
  constructor
  · intro env db h1 h2
    simp [ttl_runner, h1, h2]
  · intro env db h1 h2
    simp [ttl_runner, h1, h2]

/-- C3 counterexample: a pass that acquires the guard and then fails while
enumerating the active rules ends with the guard still held and no unlock
performed, so the guard is not released on every exit path. -/
theorem claim_c3_counterexample :
    (ttl_runner envEnumFail wDB).1.lockHeld = true ∧
    Event.unlock ∉ (ttl_runner envEnumFail wDB).2.1 ∧
    (ttl_runner envEnumFail wDB).2.2 =
      Except.error "could not enumerate active rules" := by
  decide

/-- C3 witness: both branches of the amended statement at concrete inputs. -/
theorem claim_c3_witness :
    ((ttl_runner wEnv wDB).1.lockHeld = false ∧
      Event.unlock ∈ (ttl_runner wEnv wDB).2.1) ∧
    ((ttl_runner envEnumFail wDB).1.lockHeld = true ∧
      Event.unlock ∉ (ttl_runner envEnumFail wDB).2.1 ∧
      (ttl_runner envEnumFail wDB).2.2 =
        Except.error "could not enumerate active rules") :=
  ⟨claim_c3_guard_release.1 wEnv wDB rfl rfl,
   claim_c3_guard_release.2 envEnumFail wDB rfl rfl⟩

/-- C4 (amended): with zero active rules a cleanup pass still acquires the
single-flight guard first (the lock attempt precedes the rule enumeration in
`ttl_runner`); it then performs no deletions, releases the guard and returns
0 with the database unchanged. -/
theorem claim_c4_zero_rules (env : Env) (db : DB) (h1 : db.lockHeld = false)
    (h2 : env.enumFails = false)
    (h3 : db.registry.filter (fun r => r.active) = []) :
    ttl_runner env db = (db, [Event.tryLock true, Event.unlock], Except.ok 0) := by
  have hdb : ({ db with lockHeld := false } : DB) = db := by
    rw [← h1]
  simp [ttl_runner, h1, h2, h3, sortRules, goRules, hdb]

/-- C4 counterexample: with zero active rules the pass does attempt (and
succeed in) acquiring the guard — the trace of a concrete zero-rule pass
contains a successful lock acquisition, refuting "without attempting to
acquire the single-flight guard". -/
theorem claim_c4_counterexample :
    Event.tryLock true ∈ (ttl_runner wEnv emptyDB).2.1 ∧
    (ttl_runner wEnv emptyDB).2.2 = Except.ok 0 := by
  decide

/-- C4 witness: a concrete zero-rule pass acquires and releases the guard and
returns 0. -/
theorem claim_c4_witness :
    ttl_runner wEnv emptyDB =
      (emptyDB, [Event.tryLock true, Event.unlock], Except.ok 0) :=
  claim_c4_zero_rules wEnv emptyDB rfl rfl rfl

/-- C9 (amended): `ttl_start_worker` is idempotent — starting when a worker is
already running is a no-op returning true — but `ttl_stop_worker` on an
already-stopped worker, while a no-op raising no error, returns false (its
return value is whether any worker backend was found and terminated). -/
theorem claim_c9_lifecycle_idempotence :
    (∀ (env : WorkerEnv) (s : WorkerSys), env.recoveryInProgress = false →
      is_ttl_worker_running s = true →
      ttl_start_worker env s = (s, Except.ok true)) ∧
    (∀ s : WorkerSys, s.workerRunning = false → ttl_stop_worker s = (s, false)) := by
  constructor
  · intro env s h1 h2
    simp [ttl_start_worker, h1, h2]
  · intro s h
    rcases s with ⟨b⟩
    have hb : b = false := h
    subst hb
    rfl

/-- C9 counterexample: stopping when no worker is running returns false, not
the success value true that the claim asserts. -/
theorem claim_c9_counterexample :
    (ttl_stop_worker { workerRunning := false }).2 = false ∧
    ¬ (ttl_stop_worker { workerRunning := false }).2 = true := by
  decide

/-- C9 witness: both branches of the amended statement at concrete inputs. -/
theorem claim_c9_witness :
    ttl_start_worker
        { recoveryInProgress := false, registerOk := true,
          startupResult := .started } { workerRunning := true } =
      ({ workerRunning := true }, Except.ok true) ∧
    ttl_stop_worker { workerRunning := false } =
      ({ workerRunning := false }, false) :=
  ⟨claim_c9_lifecycle_idempotence.1 _ _ rfl rfl,
   claim_c9_lifecycle_idempotence.2 _ rfl⟩

/-- C10: calling `ttl_drop_index` with a key for which no rule is registered
raises no error, returns false and leaves the database (registry and indexes)
unchanged; it returns true exactly when a matching rule row existed, and the
matching rows are removed from the registry. -/
theorem claim_c10_drop_missing (db : DB) (tn cn : String) :
    (lookupRule db.registry tn cn = none → ttl_drop_index db tn cn = (db, false)) ∧
    ((ttl_drop_index db tn cn).2 = true ↔
      ∃ r ∈ db.registry, r.table_name = tn ∧ r.column_name = cn) ∧
    (ttl_drop_index db tn cn).1.registry =
      db.registry.filter (fun r => !(r.table_name = tn && r.column_name = cn)) := by
  refine ⟨?_, ?_, ?_⟩
  · intro hnone
    simp only [lookupRule] at hnone
    have hall : ∀ r ∈ db.registry,
        ¬ ((r.table_name = tn && r.column_name = cn) = true) := by
      intro r hr
      have := List.find?_eq_none.mp hnone r hr
      simpa using this
    have hany : db.registry.any
        (fun r => r.table_name = tn && r.column_name = cn) = false := by
      rw [List.any_eq_false]
      intro r hr
      exact hall r hr
    have hfil : db.registry.filter
        (fun r => !(r.table_name = tn && r.column_name = cn)) = db.registry := by
      apply List.filter_eq_self.mpr
      intro r hr
      have hx : (decide (r.table_name = tn) && decide (r.column_name = cn)) = false :=
        Bool.eq_false_iff.mpr (hall r hr)
      rw [hx]
      rfl
    simp only [ttl_drop_index, lookupRule, hnone, Option.none_bind, hany, hfil]
  · simp [ttl_drop_index, List.any_eq_true]
  · simp [ttl_drop_index]

/-- C10 witness: dropping an unregistered key on a concrete database returns
false and changes nothing. -/
theorem claim_c10_witness :
    ttl_drop_index wDB "nope" "ts" = (wDB, false) :=
  (claim_c10_drop_missing wDB "nope" "ts").1 (by decide)

/-- C8: for every rule whose pass succeeds (exactly one statistics update for
its key is recorded in the pass trace), the pass writes back
`last_run = pass start time`, `rows_deleted_last_run = rows deleted this
pass` and `total_rows_deleted` incremented by the same count (`updEntry`);
and across any sequence of passes, each rule's `total_rows_deleted` equals its
initial value plus the sum of the `rows_deleted_last_run` values recorded by
the statistics updates of the passes in which it succeeded, and never
decreases. -/
theorem claim_c8_stats_writeback :
    (∀ (env : Env) (db : DB) (i : Nat) (e : Rule) (d : Nat),
      db.registry[i]? = some e →
      statsEventsFor e.table_name e.column_name (ttl_runner env db).2.1 = [d] →
      (ttl_runner env db).1.registry[i]? = some (updEntry (env.time 0) e d)) ∧
    (∀ (envs : List Env) (db : DB) (i : Nat) (e : Rule),
      db.registry[i]? = some e →
      ∃ e', (runPasses envs db).1.registry[i]? = some e' ∧
        e'.total_rows_deleted = e.total_rows_deleted +
          ((runPasses envs db).2.map
            (fun tr => (statsEventsFor e.table_name e.column_name tr).sum)).sum ∧
        e.total_rows_deleted ≤ e'.total_rows_deleted) := by
  constructor
  · intro env db i e d he hev
    have h := ttl_runner_registry env db i e he
    rw [hev] at h
    simpa using h
  · intro envs db i e he
    obtain ⟨e', h2, hk1, hk2, h3⟩ := runPasses_registry envs db i e he
    refine ⟨e', h2, h3, ?_⟩
    omega

/-- C8 witness: a concrete one-rule pass records a single statistics update
and writes back exactly `updEntry`; over a one-pass sequence the total equals
the recorded sum and has not decreased. -/
theorem claim_c8_witness :
    (ttl_runner wEnv wDB).1.registry[0]? = some (updEntry 100 wRule 1) ∧
    ∃ e', (runPasses [wEnv] wDB).1.registry[0]? = some e' ∧
      e'.total_rows_deleted = wRule.total_rows_deleted +
        ((runPasses [wEnv] wDB).2.map
          (fun tr => (statsEventsFor wRule.table_name wRule.column_name tr).sum)).sum ∧
      wRule.total_rows_deleted ≤ e'.total_rows_deleted :=
  ⟨claim_c8_stats_writeback.1 wEnv wDB 0 wRule 1 (by decide) (by decide),
   claim_c8_stats_writeback.2 [wEnv] wDB 0 wRule (by decide)⟩

/-- C1 (amended): for a rule with `batch_size = B ≥ 1` and `N` expired rows at
pass start (`N > B`), under a constant clock and no external failures the
batch loop finishes, deleting exactly the expired rows; it issues
`ceil(N/B) + 1` delete statements — the final one deleting zero rows, which is
what terminates the loop — and the sum of the per-batch deleted counts
equals `N`. -/
theorem claim_c1_batching (env : Env) (tbl : String) (e t : Int) (B : Nat)
    (rows : List Int) (k : Nat)
    (ht : ∀ j, env.time j = t) (hf : ∀ j, env.failAt j = false) (hB : 1 ≤ B)
    (_hN : countExpired (t - e) rows > B) :
    ∃ tr, batchLoop env tbl e B rows k =
        .ok (liveRows (t - e) rows) (countExpired (t - e) rows)
          (k + ((countExpired (t - e) rows + B - 1) / B + 1)) tr ∧
      execCount tr = (countExpired (t - e) rows + B - 1) / B + 1 ∧
      sumDeleted tr = countExpired (t - e) rows := by
  obtain ⟨tr, h1, h2, h3, _, _⟩ :=
    batchLoop_complete env tbl e t B rows k ht hB (fun j _ => hf j)
  exact ⟨tr, h1, h2, h3⟩

/-- C1 counterexample: with `B = 1` and `N = 3` expired rows (`N > B`), the
batch loop issues 4 delete statements, not `ceil(3/1) = 3`: the loop only
stops after a delete statement that removes zero rows.  The sum of per-batch
counts does equal `N`. -/
theorem claim_c1_counterexample :
    countExpired ((100 : Int) - 10) [0, 0, 0] = 3 ∧
    execCount (batchLoop wEnv "t" 10 1 [0, 0, 0] 1).trace = 4 ∧
    sumDeleted (batchLoop wEnv "t" 10 1 [0, 0, 0] 1).trace = 3 ∧
    ¬ execCount (batchLoop wEnv "t" 10 1 [0, 0, 0] 1).trace = (3 + 1 - 1) / 1 := by
  decide

/-- C1 witness: the amended statement at `B = 2` with 5 expired rows:
`ceil(5/2) + 1 = 4` delete statements, 5 rows deleted in total. -/
theorem claim_c1_witness :
    ∃ tr, batchLoop wEnv "t" 10 2 [0, 0, 0, 0, 0] 1 =
        .ok (liveRows ((100 : Int) - 10) [0, 0, 0, 0, 0])
          (countExpired ((100 : Int) - 10) [0, 0, 0, 0, 0])
          (1 + ((countExpired ((100 : Int) - 10) [0, 0, 0, 0, 0] + 2 - 1) / 2 + 1)) tr ∧
      execCount tr = (countExpired ((100 : Int) - 10) [0, 0, 0, 0, 0] + 2 - 1) / 2 + 1 ∧
      sumDeleted tr = countExpired ((100 : Int) - 10) [0, 0, 0, 0, 0] :=
  claim_c1_batching wEnv "t" 10 100 2 [0, 0, 0, 0, 0] 1 (fun _ => rfl) (fun _ => rfl)
    (by decide) (by decide)

/-- C5 (amended): the expiration cutoff is re-evaluated at every batch using
the current `clock_timestamp()` reading, not fixed at the start of the rule's
processing: with one already-expired row `u` and a row `v` that is not yet
expired when the rule's processing begins (`¬ v < t1 - e`) but expired by the
clock reading of the second batch (`v < t2 - e`), the pass deletes both rows
— `v` is deleted in the same pass. -/
theorem claim_c5_cutoff_reevaluated (u v e t1 t2 : Int) (tn cn : String)
    (hu : u < t1 - e) (_hv1 : ¬ v < t1 - e) (hv2 : v < t2 - e) :
    (ttl_runner (envTwoStep t1 t2) (mkOneDB (mkRule tn cn e 1) [u, v])).1.store =
      [(tn, [])] ∧
    (ttl_runner (envTwoStep t1 t2) (mkOneDB (mkRule tn cn e 1) [u, v])).2.2 =
      Except.ok 2 := by
  have hb : batchLoop (envTwoStep t1 t2) tn e 1 [u, v] 1 =
      .ok [] 2 4 [Event.execDelete tn (t1 - e) 1, Event.execDelete tn (t2 - e) 1,
                  Event.execDelete tn (t2 - e) 0] := by
    simp [batchLoop, batchLoopAux, deleteBatchRows, envTwoStep, hu, hv2]
  have henum : (envTwoStep t1 t2).enumFails = false := rfl
  have ht0 : (envTwoStep t1 t2).time 0 = t1 := rfl
  constructor <;>
    simp [ttl_runner, mkOneDB, mkRule, sortRules, insertRule,
      goRules, processRule, lookupTable, List.find?, hb, setTable, updateStats,
      henum, ht0]

/-- C5 counterexample: concretely, with retention 10 and clock readings 11
(first batch) then 16, the row with timestamp 5 is not expired when the
rule's processing begins (cutoff 1) yet it is deleted in that same pass,
because the second batch recomputes the cutoff as 6. -/
theorem claim_c5_counterexample :
    ¬ ((5 : Int) < 11 - 10) ∧
    (ttl_runner (envTwoStep 11 16) (mkOneDB (mkRule "t" "ts" 10 1) [0, 5])).1.store =
      [("t", [])] ∧
    (ttl_runner (envTwoStep 11 16) (mkOneDB (mkRule "t" "ts" 10 1) [0, 5])).2.2 =
      Except.ok 2 := by
  decide

/-- C5 witness: the amended statement at the concrete inputs of the
counterexample scenario. -/
theorem claim_c5_witness :
    (ttl_runner (envTwoStep 11 16) (mkOneDB (mkRule "t" "ts" 10 1) [0, 5])).1.store =
      [("t", [])] ∧
    (ttl_runner (envTwoStep 11 16) (mkOneDB (mkRule "t" "ts" 10 1) [0, 5])).2.2 =
      Except.ok 2 :=
  claim_c5_cutoff_reevaluated 0 5 10 11 16 "t" "ts" (by decide) (by decide) (by decide)

/-- C6: with two active rules where the first targets a table that no longer
exists, the pass still deletes the second rule's expired rows and updates its
statistics, leaves the failing rule's statistics untouched, reports a warning
only for the failing rule, and returns normally — an error in one rule never
aborts the pass. -/
theorem claim_c6_per_rule_isolation (tnA cnA tnB cnB : String) (eA eB t : Int)
    (B : Nat) (rowsB : List Int) (hB : 1 ≤ B)
    (hle : ruleKeyLe (mkRule tnA cnA eA 1) (mkRule tnB cnB eB B) = true)
    (hne : tnA ≠ tnB) :
    (ttl_runner (envConst t)
        (mkTwoDBMissingA (mkRule tnA cnA eA 1) (mkRule tnB cnB eB B) rowsB)).1.registry =
      [mkRule tnA cnA eA 1,
       updEntry t (mkRule tnB cnB eB B) (countExpired (t - eB) rowsB)] ∧
    (ttl_runner (envConst t)
        (mkTwoDBMissingA (mkRule tnA cnA eA 1) (mkRule tnB cnB eB B) rowsB)).1.store =
      [(tnB, liveRows (t - eB) rowsB)] ∧
    (ttl_runner (envConst t)
        (mkTwoDBMissingA (mkRule tnA cnA eA 1) (mkRule tnB cnB eB B) rowsB)).2.2 =
      Except.ok (countExpired (t - eB) rowsB) ∧
    Event.warning tnA cnA ∈ (ttl_runner (envConst t)
        (mkTwoDBMissingA (mkRule tnA cnA eA 1) (mkRule tnB cnB eB B) rowsB)).2.1 ∧
    Event.warning tnB cnB ∉ (ttl_runner (envConst t)
        (mkTwoDBMissingA (mkRule tnA cnA eA 1) (mkRule tnB cnB eB B) rowsB)).2.1 := by
  obtain ⟨trB, hbB, hexecB, hsumB, hstatsB, hallB⟩ :=
    batchLoop_complete (envConst t) tnB eB t B rowsB 2 (fun j => rfl) hB
      (fun j hj => rfl)
  have henum : (envConst t).enumFails = false := rfl
  have ht0 : (envConst t).time 0 = t := rfl
  have hnoW : Event.warning tnB cnB ∉ trB := by
    intro h
    obtain ⟨c, d, hEq⟩ := hallB _ h
    exact absurd hEq (by simp)
  have hne' : tnB ≠ tnA := Ne.symm hne
  have hlkA : lookupTable [(tnB, rowsB)] tnA = none := by
    simp [lookupTable, List.find?, hne']
  simp only [mkRule] at hle
  refine ⟨?_, ?_, ?_, ?_, ?_⟩ <;>
    simp [ttl_runner, mkTwoDBMissingA, mkRule, sortRules, insertRule, hle,
      goRules, processRule, hlkA, lookupTable, List.find?, hbB, setTable,
      updateStats, henum, ht0, hne, hne', hnoW]

/-- C6 witness: two concrete rules, the first targeting a dropped table; the
second rule's expired row is still deleted and only the first rule gets a
warning. -/
theorem claim_c6_witness :
    (ttl_runner (envConst 10)
        (mkTwoDBMissingA (mkRule "a" "c" 0 1) (mkRule "b" "c" 0 1) [0, 99])).1.registry =
      [mkRule "a" "c" 0 1,
       updEntry 10 (mkRule "b" "c" 0 1) (countExpired ((10 : Int) - 0) [0, 99])] ∧
    (ttl_runner (envConst 10)
        (mkTwoDBMissingA (mkRule "a" "c" 0 1) (mkRule "b" "c" 0 1) [0, 99])).1.store =
      [("b", liveRows ((10 : Int) - 0) [0, 99])] ∧
    (ttl_runner (envConst 10)
        (mkTwoDBMissingA (mkRule "a" "c" 0 1) (mkRule "b" "c" 0 1) [0, 99])).2.2 =
      Except.ok (countExpired ((10 : Int) - 0) [0, 99]) ∧
    Event.warning "a" "c" ∈ (ttl_runner (envConst 10)
        (mkTwoDBMissingA (mkRule "a" "c" 0 1) (mkRule "b" "c" 0 1) [0, 99])).2.1 ∧
    Event.warning "b" "c" ∉ (ttl_runner (envConst 10)
        (mkTwoDBMissingA (mkRule "a" "c" 0 1) (mkRule "b" "c" 0 1) [0, 99])).2.1 :=
  claim_c6_per_rule_isolation "a" "c" "b" "c" 0 0 10 1 [0, 99]
    (by decide) (by decide) (by decide)

/-- C2 (amended): an error during some batch of a rule's processing aborts
that rule, and because the rule's whole `BEGIN ... EXCEPTION` block is one
subtransaction, the rows deleted by the earlier, already-completed batches of
that same rule are rolled back — they do NOT remain deleted.  Work for other
rules of the pass is unaffected, and the pass continues and returns normally
(the returned count still includes the rolled-back rows, because the PL/pgSQL
counter variable survives the caught exception). -/
theorem claim_c2_batch_rollback (tnA cnA tnB cnB : String) (eA eB t a1 a2 : Int)
    (B : Nat) (rowsB : List Int) (hB : 1 ≤ B)
    (hle : ruleKeyLe (mkRule tnA cnA eA 1) (mkRule tnB cnB eB B) = true)
    (hne : tnA ≠ tnB) (ha1 : a1 < t - eA) :
    (ttl_runner (envFailSecond t)
        (mkTwoDB (mkRule tnA cnA eA 1) (mkRule tnB cnB eB B) [a1, a2] rowsB)).1.store =
      [(tnA, [a1, a2]), (tnB, liveRows (t - eB) rowsB)] ∧
    (ttl_runner (envFailSecond t)
        (mkTwoDB (mkRule tnA cnA eA 1) (mkRule tnB cnB eB B) [a1, a2] rowsB)).1.registry =
      [mkRule tnA cnA eA 1,
       updEntry t (mkRule tnB cnB eB B) (countExpired (t - eB) rowsB)] ∧
    (ttl_runner (envFailSecond t)
        (mkTwoDB (mkRule tnA cnA eA 1) (mkRule tnB cnB eB B) [a1, a2] rowsB)).2.2 =
      Except.ok (1 + countExpired (t - eB) rowsB) ∧
    Event.execDelete tnA (t - eA) 1 ∈ (ttl_runner (envFailSecond t)
        (mkTwoDB (mkRule tnA cnA eA 1) (mkRule tnB cnB eB B) [a1, a2] rowsB)).2.1 ∧
    Event.warning tnA cnA ∈ (ttl_runner (envFailSecond t)
        (mkTwoDB (mkRule tnA cnA eA 1) (mkRule tnB cnB eB B) [a1, a2] rowsB)).2.1 := by
  have hf3 : ∀ j, 3 ≤ j → (envFailSecond t).failAt j = false := by
    intro j hj
    simp [envFailSecond]
    omega
  obtain ⟨trB, hbB, hexecB, hsumB, hstatsB, hallB⟩ :=
    batchLoop_complete (envFailSecond t) tnB eB t B rowsB 3 (fun j => rfl) hB hf3
  have hbA : batchLoop (envFailSecond t) tnA eA 1 [a1, a2] 1 =
      .err "delete failed" 1 3
        [Event.execDelete tnA (t - eA) 1, Event.execError tnA "delete failed"] := by
    simp [batchLoop, batchLoopAux, deleteBatchRows, envFailSecond, ha1]
  have henum : (envFailSecond t).enumFails = false := rfl
  have ht0 : (envFailSecond t).time 0 = t := rfl
  have hne' : tnB ≠ tnA := Ne.symm hne
  have hlkA : lookupTable [(tnA, [a1, a2]), (tnB, rowsB)] tnA = some [a1, a2] := by
    simp [lookupTable, List.find?]
  have hlkB : lookupTable [(tnA, [a1, a2]), (tnB, rowsB)] tnB = some rowsB := by
    simp [lookupTable, List.find?, hne]
  simp only [mkRule] at hle
  refine ⟨?_, ?_, ?_, ?_, ?_⟩ <;>
    simp [ttl_runner, mkTwoDB, mkRule, sortRules, insertRule, hle,
      goRules, processRule, hlkA, hlkB, hbA, hbB, setTable,
      updateStats, henum, ht0, hne, hne']

/-- C2 counterexample: one rule with batch size 1 and two expired rows, where
the second batch statement raises: the first batch had deleted one row (the
trace records it), yet after the pass both rows are still in the table — the
earlier batch's deletion was rolled back, not retained. -/
theorem claim_c2_counterexample :
    Event.execDelete "a" 10 1 ∈
      (ttl_runner (envFailSecond 10) (mkOneDB (mkRule "a" "c" 0 1) [0, 0])).2.1 ∧
    (ttl_runner (envFailSecond 10) (mkOneDB (mkRule "a" "c" 0 1) [0, 0])).1.store =
      [("a", [0, 0])] ∧
    (ttl_runner (envFailSecond 10) (mkOneDB (mkRule "a" "c" 0 1) [0, 0])).1.registry =
      [mkRule "a" "c" 0 1] := by
  decide

/-- C2 witness: the amended statement at concrete inputs. -/
theorem claim_c2_witness :
    (ttl_runner (envFailSecond 10)
        (mkTwoDB (mkRule "a" "c" 0 1) (mkRule "b" "c" 0 1) [0, 0] [0, 99])).1.store =
      [("a", [0, 0]), ("b", liveRows ((10 : Int) - 0) [0, 99])] ∧
    (ttl_runner (envFailSecond 10)
        (mkTwoDB (mkRule "a" "c" 0 1) (mkRule "b" "c" 0 1) [0, 0] [0, 99])).1.registry =
      [mkRule "a" "c" 0 1,
       updEntry 10 (mkRule "b" "c" 0 1) (countExpired ((10 : Int) - 0) [0, 99])] ∧
    (ttl_runner (envFailSecond 10)
        (mkTwoDB (mkRule "a" "c" 0 1) (mkRule "b" "c" 0 1) [0, 0] [0, 99])).2.2 =
      Except.ok (1 + countExpired ((10 : Int) - 0) [0, 99]) ∧
    Event.execDelete "a" ((10 : Int) - 0) 1 ∈ (ttl_runner (envFailSecond 10)
        (mkTwoDB (mkRule "a" "c" 0 1) (mkRule "b" "c" 0 1) [0, 0] [0, 99])).2.1 ∧
    Event.warning "a" "c" ∈ (ttl_runner (envFailSecond 10)
        (mkTwoDB (mkRule "a" "c" 0 1) (mkRule "b" "c" 0 1) [0, 0] [0, 99])).2.1 :=
  claim_c2_batch_rollback "a" "c" "b" "c" 0 0 10 0 0 1 [0, 99]
    (by decide) (by decide) (by decide) (by decide)

/-- Fuel irrelevance: any fuel exceeding the number of remaining rows gives
the same batch-loop result, so `batchLoop`'s choice of `rows.length + 1`
faithfully represents the unbounded PL/pgSQL `LOOP`: every iteration that
continues has removed at least one row. -/
theorem batchLoopAux_fuel_irrelevant (env : Env) (tbl : String) (e : Int) (B : Nat) :
    ∀ fuel rows k fuel2, rows.length < fuel → rows.length < fuel2 →
      batchLoopAux env tbl e B fuel rows k = batchLoopAux env tbl e B fuel2 rows k := by
  intro fuel
  induction fuel with
  | zero =>
    intro rows k fuel2 h1 h2
    omega
  | succ fuel ih =>
    intro rows k fuel2 hlen hlen2
    cases fuel2 with
    | zero => omega
    | succ fuel2 =>
      by_cases hfk : env.failAt k = true
      · simp [batchLoopAux, hfk]
      · by_cases hz : (deleteBatchRows (env.time k - e) B rows).2 = 0
        · simp [batchLoopAux, hfk, hz]
        · have hlen3 := deleteBatchRows_len (env.time k - e) B rows
          have h1 : (deleteBatchRows (env.time k - e) B rows).1.length < fuel := by omega
          have h2 : (deleteBatchRows (env.time k - e) B rows).1.length < fuel2 := by omega
          have hrec := ih (deleteBatchRows (env.time k - e) B rows).1 (k + 1) fuel2 h1 h2
          simp only [batchLoopAux, hfk, Bool.false_eq_true, if_false, if_neg hz]
          rw [hrec]
